import Mathlib

/-!
# Verification of the `args` command-line option library

A shallow embedding of the core of the `args` crate (option registry,
resolution engine, typed accessors, validation pipeline), translated from
`src/lib.rs`, `src/options/mod.rs`, `src/errors.rs` and
`src/args/validations.rs` (the `Validation` trait, `Order` and
`OrderValidation`, re-exported by the crate as `validations`).

The getopts tokenizer is an external collaborator: it is modelled by its
output, a `Matches` value (per long name: presence and the matched value
strings in occurrence order), or a rendered failure message.  `BTreeMap`s
are modelled as association lists with overwrite-on-insert; every
observation the claims make (`value_of`, `has_value`, `values_of`) is a
key lookup, which agrees with the map.  Rust's `&mut self` methods become
functions returning the new state; `Args::parse` returns the `Result`
together with the post-state, because the source mutates `self.values` as
the resolution loop runs.
-/

namespace Args2Proof

/-- Association-list lookup (first entry with the key wins), modelling
`BTreeMap::get`. -/
def alookup {α : Type} : List (String × α) → String → Option α
  | [], _ => none
  | (k, v) :: rest, key => if k = key then some v else alookup rest key

/-- Association-list insert with overwrite, modelling `BTreeMap::insert`
(the stored order differs from the sorted map's, but every observation in
this development is a lookup, which agrees). -/
def ainsert {α : Type} : List (String × α) → String → α → List (String × α)
  | [], k, v => [(k, v)]
  | (k', v') :: rest, k, v =>
      if k' = k then (k, v) :: rest else (k', v') :: ainsert rest k v

/-- `const SEPARATOR: &'static str = ","` — the reserved delimiter.  The
source only ever splits and joins on this one-character string, so it is
modelled as the character `','`. -/
def SEPARATOR : Char := ','

/-- Rust `Vec<String>::join(SEPARATOR)`: interleave the separator between
the pieces' character sequences. -/
def strJoin (pieces : List String) : String :=
  String.mk (List.intercalate [SEPARATOR] (pieces.map String.data))

/-- Rust `str::split(SEPARATOR)` with the one-character pattern `","`:
split the character sequence at every `','`. -/
def strSplit (s : String) : List String :=
  (List.splitOn SEPARATOR s.data).map String.mk

/-- `errors.rs`: an `ArgsError` is the rendered description string; the
scope (when non-empty) is rendered as the prefix `"<scope>: "`. -/
structure ArgsError where
  desc : String
deriving DecidableEq

/-- `ArgsError::new_with_usage(scope, msg, usage)` from `errors.rs`. -/
def ArgsError.new_with_usage (scope msg usage : String) : ArgsError :=
  let desc := if scope = "" then "" else scope ++ ": "
  let desc := desc ++ msg
  let desc := if usage = "" then desc else desc ++ "\n\n" ++ usage
  ⟨desc⟩

/-- `ArgsError::new(scope, msg)` from `errors.rs`. -/
def ArgsError.new (scope msg : String) : ArgsError :=
  ArgsError.new_with_usage scope msg ""

/-- Whether an `ArgsError` is surfaced with the given scope: per
`errors.rs`, the scope is rendered as the prefix `"<scope>: "` of the
description. -/
def ArgsError.renderedScopeIs (e : ArgsError) (scope : String) : Bool :=
  List.isPrefixOf (scope ++ ": ").data e.desc.data

/-- getopts `HasArg`. -/
inductive HasArg
  | no
  | yes
  | maybe
deriving DecidableEq

/-- getopts `Occur`. -/
inductive Occur
  | req
  | optional
  | multi
deriving DecidableEq

/-- getopts `Fail` variants relevant here: `ArgumentMissing` and
`UnrecognizedOption` are constructed by the source itself in
`Args::parse`; `OptionMissing` is the failure getopts' own
`Options::parse` returns when an option registered `Occur::Req` has zero
occurrences (that check runs inside the tokenizer, before a `Matches`
object exists). -/
inductive Fail
  | argumentMissing (nm : String)
  | unrecognizedOption (nm : String)
  | optionMissing (nm : String)
deriving DecidableEq

/-- getopts `Fail`'s `Display` rendering (used via `.to_string()`). -/
def Fail.render : Fail → String
  | Fail.argumentMissing nm => "Argument to option '" ++ nm ++ "' missing"
  | Fail.unrecognizedOption nm => "Unrecognized option: '" ++ nm ++ "'"
  | Fail.optionMissing nm => "Required option '" ++ nm ++ "' missing"

/-- The getopts `Matches` object, the tokenizer adapter's output: per long
name, the matched occurrence value strings, in occurrence order.  A present
flag (no value) is an entry with the empty list. -/
structure Matches where
  entries : List (String × List String)

/-- `Matches::opt_strs(name)`: all matched value strings, in order. -/
def Matches.opt_strs (m : Matches) (name : String) : List String :=
  (alookup m.entries name).getD []

/-- `Matches::opt_present(name)`: whether the option occurred at all. -/
def Matches.opt_present (m : Matches) (name : String) : Bool :=
  (alookup m.entries name).isSome

/-- `Matches::opt_str(name)`: the first matched value string, if any. -/
def Matches.opt_str (m : Matches) (name : String) : Option String :=
  (m.opt_strs name).head?

/-- The `Opt` trait objects of `options/mod.rs`: the two implementations
`Single` and `Multi` as a closed sum, each carrying its fields. -/
inductive Opt
  | single (short_name long_name desc hint : String)
      (has_arg : HasArg) (occur : Occur) (default : Option String)
  | multi (short_name long_name desc hint : String)
deriving DecidableEq

/-- `Opt::name()`: both implementations return the long name. -/
def Opt.name : Opt → String
  | Opt.single _ l _ _ _ _ _ => l
  | Opt.multi _ l _ _ => l

/-- `Opt::is_required()`: `Single` answers `occur == Occur::Req`;
`Multi` answers `true` (`options/mod.rs` lines 63–65). -/
def Opt.is_required : Opt → Bool
  | Opt.single _ _ _ _ _ occur _ => occur = Occur.req
  | Opt.multi _ _ _ _ => true

/-- `Opt::is_multi()`. -/
def Opt.is_multi : Opt → Bool
  | Opt.single _ _ _ _ _ _ _ => false
  | Opt.multi _ _ _ _ => true

/-- `Opt::parse(&self, matches)`.  `Single`: a no-argument option yields
the textual boolean of presence; otherwise the matched string, or else the
default if defined.  `Multi`: all matched occurrences joined with the
reserved delimiter, or `None` when there are none. -/
def Opt.parse (o : Opt) (m : Matches) : Option String :=
  match o with
  | Opt.single _ l _ _ has_arg _ default =>
      if has_arg = HasArg.no then
        some (toString (m.opt_present l))
      else
        (m.opt_str l).orElse (fun _ => if default.isSome then default else none)
  | Opt.multi _ l _ _ =>
      let strs := m.opt_strs l
      if strs = [] then none else some (strJoin strs)

/-- `Single::new`: if a default is given, the occurrence becomes
`Optional` regardless of the declared value. -/
def Single.new (short_name long_name desc hint : String)
    (has_arg : HasArg) (occur : Occur) (default : Option String) : Opt :=
  Opt.single short_name long_name desc hint has_arg
    (if default.isSome then Occur.optional else occur) default

/-- `Multi::new`. -/
def Multi.new (short_name long_name desc hint : String) : Opt :=
  Opt.multi short_name long_name desc hint

/-- `options::new`, the factory: `HasArg::Maybe` panics (modelled as
`none`); a non-`Multi` occurrence builds a `Single`, otherwise a `Multi`
(which drops the occurrence and the default). -/
def optionsNew (short_name long_name desc hint : String)
    (has_arg : HasArg) (occur : Occur) (default : Option String) : Option Opt :=
  if has_arg = HasArg.maybe then none
  else if occur ≠ Occur.multi then
    some (Single.new short_name long_name desc hint has_arg occur default)
  else
    some (Multi.new short_name long_name desc hint)

/-- `const SCOPE_PARSE: &'static str = "parse"`. -/
def SCOPE_PARSE : String := "parse"

/-- The `Args` struct of `lib.rs` (the getopts `Options` registration
state is the tokenizer adapter's side and carries no information the
resolution engine reads back). -/
structure Args where
  description : String
  opts : List (String × Opt)
  opt_names : List String
  program_name : String
  values : List (String × String)
deriving DecidableEq

/-- `Args::new`. -/
def Args.new (program_name description : String) : Args :=
  { description := description
    opts := []
    opt_names := []
    program_name := program_name
    values := [] }

/-- `Args::register_opt`: register unless the long name is already known,
in which case the call is ignored (a warning is logged). -/
def Args.register_opt (a : Args) (opt : Opt) : Args :=
  if ¬ a.opt_names.contains opt.name then
    { a with
      opt_names := a.opt_names ++ [opt.name]
      opts := ainsert a.opts opt.name opt }
  else
    a

/-- `Args::flag`: registers `options::new(short, long, desc, "",
HasArg::No, Occur::Optional, None)` (never the panicking or ignored
branches of the factory). -/
def Args.flag (a : Args) (short_name long_name desc : String) : Args :=
  match optionsNew short_name long_name desc "" HasArg.no Occur.optional none with
  | some opt => a.register_opt opt
  | none => a

/-- `Args::option`: registers `options::new(short, long, desc, hint,
HasArg::Yes, occur, default)`. -/
def Args.option (a : Args) (short_name long_name desc hint : String)
    (occur : Occur) (default : Option String) : Args :=
  match optionsNew short_name long_name desc hint HasArg.yes occur default with
  | some opt => a.register_opt opt
  | none => a

/-- `Args::has_value`. -/
def Args.has_value (a : Args) (opt_name : String) : Bool :=
  (alookup a.values opt_name).isSome

/-- The `for opt_name in &self.opt_names` loop of `Args::parse`: look the
descriptor up, resolve its value against the matches, store a non-empty
value, and fail on an empty value of a required option.  The accumulated
value store is returned alongside the result because the source mutates
`self.values` in place as the loop runs. -/
def parseLoop (opts : List (String × Opt)) (m : Matches) :
    List String → List (String × String) →
    Except ArgsError Unit × List (String × String)
  | [], values => (Except.ok (), values)
  | opt_name :: rest, values =>
      match alookup opts opt_name with
      | none =>
          (Except.error (ArgsError.new SCOPE_PARSE
            (Fail.unrecognizedOption opt_name).render), values)
      | some opt =>
          let value := (opt.parse m).getD ""
          if value ≠ "" then
            parseLoop opts m rest (ainsert values opt_name value)
          else if opt.is_required then
            (Except.error (ArgsError.new SCOPE_PARSE
              (Fail.argumentMissing opt_name).render), values)
          else
            parseLoop opts m rest values

/-- `Args::parse`: delegate the raw tokens to the getopts tokenizer (its
outcome — a `Matches` or a rendered failure — is this function's input),
then run the resolution loop over the registered names.  Returns the
`Result` together with the post-state. -/
def Args.parse (a : Args) (tokenized : Except String Matches) :
    Except ArgsError Unit × Args :=
  match tokenized with
  | Except.error msg => (Except.error (ArgsError.new SCOPE_PARSE msg), a)
  | Except.ok ms =>
      let r := parseLoop a.opts ms a.opt_names a.values
      (r.1, { a with values := r.2 })

/-- The guarantee the getopts tokenizer gives about its `Ok` outcomes:
`Options::parse` enforces `Occur::Req` before returning a `Matches`
object, so an option registered as required — a `Single` whose `occur` is
`Req` (`Single::register` passes its `occur` through; `Multi::register`
uses `optmulti`, i.e. `Occur::Multi`, and is exempt) — never reaches the
resolution loop with zero occurrences: getopts fails first with
`Fail::OptionMissing`.  An occurrence of a `HasArg::Yes` option always
carries a value string (possibly empty), so `opt_strs` is non-empty. -/
def TokenizerReqEnforced (a : Args) (tokenized : Except String Matches) : Prop :=
  ∀ m, tokenized = Except.ok m →
    ∀ k opt, (k, opt) ∈ a.opts → opt.is_required = true → opt.is_multi = false →
      m.opt_strs opt.name ≠ []

/-- The `FromStr` capability of the target scalar types: `from_str`
returns `none` where Rust's returns `Err` (the accessor layer discards the
error's content). -/
class FromStr (T : Type) where
  from_str : String → Option T

/-- `String::from_str` is infallible. -/
instance : FromStr String where
  from_str s := some s

/-- `bool::from_str` accepts exactly `"true"` and `"false"`. -/
instance : FromStr Bool where
  from_str s := if s = "true" then some true
    else if s = "false" then some false else none

/-- `i32::from_str`: an optional sign, then a non-empty run of decimal
digits, with the value required to fit in 32 bits. -/
def parseI32 (s : String) : Option Int :=
  let core : List Char → Int → Option Int := fun digits sign =>
    if digits = [] then none
    else if digits.all Char.isDigit then
      let v : Int := digits.foldl (fun acc c => acc * 10 + (Int.ofNat (c.toNat - 48))) 0
      let r := sign * v
      if -(2 ^ 31) ≤ r ∧ r < 2 ^ 31 then some r else none
    else none
  match s.data with
  | [] => none
  | '+' :: rest => core rest 1
  | '-' :: rest => core rest (-1)
  | l => core l 1

instance : FromStr Int where
  from_str := parseI32

/-- `Args::value_of`: look the name up in the value store (`"does not
have a value"` if absent), then coerce (`"unable to parse '<raw>'"` on
failure). -/
def Args.value_of {T : Type} [FromStr T] (a : Args) (opt_name : String) :
    Except ArgsError T :=
  match alookup a.values opt_name with
  | none => Except.error (ArgsError.new opt_name "does not have a value")
  | some value_string =>
      match FromStr.from_str value_string with
      | some v => Except.ok v
      | none => Except.error
          (ArgsError.new opt_name ("unable to parse '" ++ value_string ++ "'"))

/-- The `.collect::<Result<Vec<T>, ArgsError>>()` of `Args::values_of`:
coerce every piece, short-circuiting at the first piece that fails. -/
def coerceAll {T : Type} [FromStr T] (opt_name : String) :
    List String → Except ArgsError (List T)
  | [] => Except.ok []
  | piece :: rest =>
      match FromStr.from_str (T := T) piece with
      | none => Except.error
          (ArgsError.new opt_name ("unable to parse '" ++ piece ++ "'"))
      | some v => (coerceAll opt_name rest).map (fun tl => v :: tl)

/-- `Args::values_of`: look the name up, split the stored string on the
reserved delimiter, coerce every piece. -/
def Args.values_of {T : Type} [FromStr T] (a : Args) (opt_name : String) :
    Except ArgsError (List T) :=
  match alookup a.values opt_name with
  | none => Except.error (ArgsError.new opt_name "does not have a value")
  | some values_str => coerceAll opt_name (strSplit values_str)

/-- The `Validation` trait of `validations.rs`, over an already-coerced
value of type `T`: a validity predicate and an error description. -/
structure Validation (T : Type) where
  is_valid : T → Bool
  error : T → ArgsError

/-- The defaulted `Validation::is_invalid`. -/
def Validation.is_invalid {T : Type} (v : Validation T) (value : T) : Bool :=
  ! v.is_valid value

/-- The `Order` enum of `validations.rs`. -/
inductive Order
  | greaterThan
  | greaterThanOrEqual
  | lessThan
  | lessThanOrEqual

/-- `Order::compare(bound, value)` from `validations.rs`. -/
def Order.compare {T : Type} [LT T] [LE T]
    [DecidableRel (fun a b : T => a < b)] [DecidableRel (fun a b : T => a ≤ b)]
    (o : Order) (bound value : T) : Bool :=
  match o with
  | Order.greaterThan => decide (bound < value)
  | Order.greaterThanOrEqual => decide (bound ≤ value)
  | Order.lessThan => decide (value < bound)
  | Order.lessThanOrEqual => decide (value ≤ bound)

/-- `Order`'s `Display` rendering. -/
def Order.render : Order → String
  | Order.greaterThan => "greater than"
  | Order.greaterThanOrEqual => "greater than or equal to"
  | Order.lessThan => "less than"
  | Order.lessThanOrEqual => "less than or equal to"

/-- `OrderValidation::new(order, bound)` as a `Validation` value:
`is_valid` compares against the bound, `error` renders
`"<value> is not <order> <bound>"` in the scope `"order invalid"`. -/
def OrderValidation.new {T : Type} [ToString T] [LT T] [LE T]
    [DecidableRel (fun a b : T => a < b)] [DecidableRel (fun a b : T => a ≤ b)]
    (order : Order) (bound : T) : Validation T :=
  { is_valid := fun value => order.compare bound value
    error := fun value => ArgsError.new "order invalid"
      (toString value ++ " is not " ++ order.render ++ " " ++ toString bound) }

/-- The `for validation in validations` loop of
`Args::validated_value_of`: the first failing validation's error is
returned; if all pass, the value is returned unchanged. -/
def runValidations {T : Type} (value : T) :
    List (Validation T) → Except ArgsError T
  | [] => Except.ok value
  | v :: rest =>
      if v.is_invalid value then Except.error (v.error value)
      else runValidations value rest

/-- `Args::validated_value_of`: `value_of` and then the validation loop. -/
def Args.validated_value_of {T : Type} [FromStr T] (a : Args)
    (opt_name : String) (validations : List (Validation T)) :
    Except ArgsError T :=
  (a.value_of (T := T) opt_name).bind (fun value => runValidations value validations)

end Args2Proof

namespace Args2Proof

/-! ## Helper lemmas about the association-list maps -/

theorem alookup_ainsert_self {α : Type} (l : List (String × α)) (k : String) (v : α) :
    alookup (ainsert l k v) k = some v := by
  induction l with
  | nil => simp [ainsert, alookup]
  | cons hd tl ih =>
      obtain ⟨k', v'⟩ := hd
      by_cases hk : k' = k
      · simp [ainsert, hk, alookup]
      · simp [ainsert, hk, alookup, ih]

theorem alookup_ainsert_ne {α : Type} (l : List (String × α)) (k k' : String) (v : α)
    (h : k' ≠ k) : alookup (ainsert l k v) k' = alookup l k' := by
  induction l with
  | nil => simp [ainsert, alookup, Ne.symm h]
  | cons hd tl ih =>
      obtain ⟨k₀, v₀⟩ := hd
      by_cases hk : k₀ = k
      · subst hk
        simp [ainsert, alookup, Ne.symm h]
      · simp only [ainsert, if_neg hk]
        by_cases hk' : k₀ = k'
        · simp [alookup, hk']
        · simp [alookup, hk', ih]

theorem alookup_ainsert_isSome {α : Type} (l : List (String × α)) (k k' : String) (v : α)
    (h : (alookup l k').isSome = true) : (alookup (ainsert l k v) k').isSome = true := by
  by_cases hk : k' = k
  · subst hk; simp [alookup_ainsert_self]
  · rwa [alookup_ainsert_ne l k k' v hk]

end Args2Proof

namespace Args2Proof

/-! ## Helper lemmas about the resolution loop -/

theorem parseLoop_lookup_of_not_mem (opts : List (String × Opt)) (m : Matches)
    (names : List String) (values : List (String × String)) (name : String)
    (h : name ∉ names) :
    alookup (parseLoop opts m names values).2 name = alookup values name := by
  induction names generalizing values with
  | nil => simp [parseLoop]
  | cons n rest ih =>
      simp only [List.mem_cons, not_or] at h
      obtain ⟨hn, hrest⟩ := h
      cases hopt : alookup opts n with
      | none => simp [parseLoop, hopt]
      | some opt =>
          simp only [parseLoop, hopt]
          by_cases hv : (opt.parse m).getD "" ≠ ""
          · rw [if_pos hv, ih _ hrest, alookup_ainsert_ne _ _ _ _ hn]
          · rw [if_neg hv]
            cases hr : opt.is_required
            · simp only [Bool.false_eq_true, if_false]
              exact ih _ hrest
            · simp

theorem parseLoop_lookup_isSome (opts : List (String × Opt)) (m : Matches)
    (names : List String) (values : List (String × String)) (k : String)
    (h : (alookup values k).isSome = true) :
    (alookup (parseLoop opts m names values).2 k).isSome = true := by
  induction names generalizing values with
  | nil => simpa [parseLoop] using h
  | cons n rest ih =>
      cases hopt : alookup opts n with
      | none => simpa [parseLoop, hopt] using h
      | some opt =>
          simp only [parseLoop, hopt]
          by_cases hv : (opt.parse m).getD "" ≠ ""
          · rw [if_pos hv]
            exact ih _ (alookup_ainsert_isSome _ _ _ _ h)
          · rw [if_neg hv]
            cases hr : opt.is_required
            · simp only [Bool.false_eq_true, if_false]
              exact ih _ h
            · simpa using h

theorem parseLoop_no_empty_value (opts : List (String × Opt)) (m : Matches)
    (names : List String) (values : List (String × String))
    (h : ∀ k, alookup values k ≠ some "") :
    ∀ k, alookup (parseLoop opts m names values).2 k ≠ some "" := by
  induction names generalizing values with
  | nil => simpa [parseLoop] using h
  | cons n rest ih =>
      cases hopt : alookup opts n with
      | none => simpa [parseLoop, hopt] using h
      | some opt =>
          simp only [parseLoop, hopt]
          by_cases hv : (opt.parse m).getD "" ≠ ""
          · rw [if_pos hv]
            refine ih _ (fun k => ?_)
            by_cases hk : k = n
            · subst hk
              rw [alookup_ainsert_self]
              simpa using hv
            · rw [alookup_ainsert_ne _ _ _ _ hk]
              exact h k
          · rw [if_neg hv]
            cases hr : opt.is_required
            · simp only [Bool.false_eq_true, if_false]
              exact ih _ h
            · simpa using h

theorem parseLoop_lookup_of_ok (opts : List (String × Opt)) (m : Matches)
    (names : List String) (values : List (String × String))
    (name : String) (opt : Opt)
    (hopt : alookup opts name = some opt)
    (hmem : name ∈ names)
    (hok : (parseLoop opts m names values).1 = Except.ok ()) :
    alookup (parseLoop opts m names values).2 name =
      (if (opt.parse m).getD "" ≠ "" then some ((opt.parse m).getD "")
       else alookup values name) := by
  induction names generalizing values with
  | nil => cases hmem
  | cons n rest ih =>
      by_cases hn : name = n
      · subst hn
        simp only [parseLoop, hopt] at hok ⊢
        by_cases hv : (opt.parse m).getD "" ≠ ""
        · rw [if_pos hv] at hok ⊢
          by_cases hmem' : name ∈ rest
          · rw [ih _ hmem' hok, if_pos hv]
            rw [if_pos hv]
          · rw [parseLoop_lookup_of_not_mem _ _ _ _ _ hmem', if_pos hv,
              alookup_ainsert_self]
        · rw [if_neg hv] at hok ⊢
          by_cases hreq : opt.is_required = true
          · rw [if_pos hreq] at hok
            simp at hok
          · rw [if_neg hreq] at hok ⊢
            by_cases hmem' : name ∈ rest
            · exact ih _ hmem' hok
            · rw [parseLoop_lookup_of_not_mem _ _ _ _ _ hmem', if_neg hv]
      · have hmem' : name ∈ rest := by
          rcases List.mem_cons.mp hmem with h1 | h1
          · exact absurd h1 hn
          · exact h1
        cases hopt' : alookup opts n with
        | none =>
            rw [parseLoop, hopt'] at hok
            simp at hok
        | some opt' =>
            simp only [parseLoop, hopt'] at hok ⊢
            by_cases hv' : (opt'.parse m).getD "" ≠ ""
            · rw [if_pos hv'] at hok ⊢
              rw [ih _ hmem' hok, alookup_ainsert_ne _ _ _ _ hn]
            · rw [if_neg hv'] at hok ⊢
              by_cases hreq' : opt'.is_required = true
              · rw [if_pos hreq'] at hok
                simp at hok
              · rw [if_neg hreq'] at hok ⊢
                exact ih _ hmem' hok

end Args2Proof

namespace Args2Proof

/-! ## Helper lemmas: split/join round-trip, coercion, validations -/

theorem strSplit_strJoin (pieces : List String) (hne : pieces ≠ [])
    (hsep : ∀ p ∈ pieces, SEPARATOR ∉ p.data) :
    strSplit (strJoin pieces) = pieces := by
  unfold strSplit strJoin
  have hx : ∀ l ∈ pieces.map String.data, SEPARATOR ∉ l := by
    intro l hl
    obtain ⟨p, hp, rfl⟩ := List.mem_map.mp hl
    exact hsep p hp
  have hls : pieces.map String.data ≠ [] := by
    simpa using hne
  rw [show (String.mk (List.intercalate [SEPARATOR] (pieces.map String.data))).data
      = List.intercalate [SEPARATOR] (pieces.map String.data) from rfl]
  rw [List.splitOn_intercalate (pieces.map String.data) SEPARATOR hx hls]
  rw [List.map_map]
  have hid : (String.mk ∘ String.data) = id := by
    funext s
    rfl
  rw [hid, List.map_id]

theorem strJoin_ne_empty (pieces : List String) (hne : pieces ≠ [])
    (hnonempty : ∀ p ∈ pieces, p ≠ "")
    (hsep : ∀ p ∈ pieces, SEPARATOR ∉ p.data) :
    strJoin pieces ≠ "" := by
  intro hempty
  have hsplit := strSplit_strJoin pieces hne hsep
  rw [hempty] at hsplit
  have : strSplit "" = [""] := rfl
  rw [this] at hsplit
  have hmem : "" ∈ pieces := by
    rw [← hsplit]
    exact List.mem_singleton.mpr rfl
  exact hnonempty "" hmem rfl

theorem coerceAll_string (opt_name : String) (l : List String) :
    coerceAll (T := String) opt_name l = Except.ok l := by
  induction l with
  | nil => rfl
  | cons p rest ih =>
      show (coerceAll opt_name rest).map (fun tl => p :: tl) = Except.ok (p :: rest)
      rw [ih]
      rfl

theorem coerceAll_first_failure {T : Type} [FromStr T] (opt_name : String)
    (good : List String) (bad : String) (rest : List String)
    (hgood : ∀ q ∈ good, (FromStr.from_str (T := T) q).isSome = true)
    (hbad : FromStr.from_str (T := T) bad = none) :
    coerceAll (T := T) opt_name (good ++ bad :: rest) =
      Except.error (ArgsError.new opt_name ("unable to parse '" ++ bad ++ "'")) := by
  induction good with
  | nil =>
      simp only [List.nil_append]
      show (match FromStr.from_str (T := T) bad with
        | none => Except.error (ArgsError.new opt_name ("unable to parse '" ++ bad ++ "'"))
        | some v => (coerceAll opt_name rest).map (fun tl => v :: tl)) = _
      rw [hbad]
  | cons q qs ih =>
      have hq := hgood q (List.mem_cons_self q qs)
      obtain ⟨v, hv⟩ := Option.isSome_iff_exists.mp hq
      simp only [List.cons_append]
      show (match FromStr.from_str (T := T) q with
        | none => Except.error (ArgsError.new opt_name ("unable to parse '" ++ q ++ "'"))
        | some v => (coerceAll opt_name (qs ++ bad :: rest)).map (fun tl => v :: tl)) = _
      rw [hv, ih (fun r hr => hgood r (List.mem_cons_of_mem q hr))]
      rfl

theorem runValidations_eq_find {T : Type} (value : T) (vs : List (Validation T)) :
    runValidations value vs =
      (match vs.find? (fun x => x.is_invalid value) with
       | some x => Except.error (x.error value)
       | none => Except.ok value) := by
  induction vs with
  | nil => rfl
  | cons v rest ih =>
      show (if v.is_invalid value then Except.error (v.error value)
        else runValidations value rest) = _
      by_cases hv : v.is_invalid value = true
      · rw [if_pos hv]
        simp only [List.find?, hv]
      · rw [if_neg (by simpa using hv)]
        have hv' : v.is_invalid value = false := by simpa using hv
        simp only [List.find?, hv']
        exact ih

theorem Args.parse_ok_components (a a' : Args) (m : Matches)
    (hparse : a.parse (Except.ok m) = (Except.ok (), a')) :
    (parseLoop a.opts m a.opt_names a.values).1 = Except.ok () ∧
    a'.values = (parseLoop a.opts m a.opt_names a.values).2 := by
  have h1 := congrArg Prod.fst hparse
  have h2 := congrArg (fun p => (Prod.snd p).values) hparse
  simp only [Args.parse] at h1 h2
  exact ⟨h1, h2.symm⟩

theorem list_isPrefixOf_append {α : Type} [BEq α] [LawfulBEq α] (l l' : List α) :
    List.isPrefixOf l (l ++ l') = true := by
  induction l with
  | nil => simp [List.isPrefixOf]
  | cons x xs ih => simp [List.isPrefixOf, ih]

theorem renderedScopeIs_of_new (scope msg : String) (hscope : scope ≠ "") :
    (ArgsError.new scope msg).renderedScopeIs scope = true := by
  have hdesc : (ArgsError.new scope msg).desc = (scope ++ ": ") ++ msg := by
    unfold ArgsError.new ArgsError.new_with_usage
    simp [hscope]
  unfold ArgsError.renderedScopeIs
  rw [hdesc, String.data_append]
  exact list_isPrefixOf_append _ _

end Args2Proof

namespace Args2Proof

/-! ## The claims -/

/-- Equality of `Except` results is decidable componentwise (used to
evaluate the model at concrete inputs). -/
instance exceptDecidableEq {e a : Type} [DecidableEq e] [DecidableEq a] :
    DecidableEq (Except e a) := fun x y =>
  match x, y with
  | Except.error u, Except.error u' =>
      if h : u = u' then Decidable.isTrue (by rw [h])
      else Decidable.isFalse (by intro hc; injection hc; exact h (by assumption))
  | Except.ok v, Except.ok v' =>
      if h : v = v' then Decidable.isTrue (by rw [h])
      else Decidable.isFalse (by intro hc; injection hc; exact h (by assumption))
  | Except.error _, Except.ok _ => Decidable.isFalse (fun hc => Except.noConfusion hc)
  | Except.ok _, Except.error _ => Decidable.isFalse (fun hc => Except.noConfusion hc)

/-- The registry of the C1 failing input: a single `MultiValue` option
registered as `option("o", "option", "Option", "OPT", Occur::Multi, None)`. -/
def C1_args : Args :=
  (Args.new "program" "desc").option "o" "option" "Option" "OPT" Occur.multi none

/-- C1: the claim (with the spec and the repository's own test
`tst::parse::multi::absent::returns_ok`) says that, for a registered
MultiValue option, parse with zero occurrences of that option succeeds,
the option yielding no stored values.  The code disagrees:
`Multi::is_required()` returns `true`, so the resolution loop, finding no
resolved value, returns the MissingArgument parse error.  This theorem
evaluates the model at the failing input — a code bug. -/
theorem C1_multi_zero_occurrences_parse_fails :
    (C1_args.parse (Except.ok ⟨[]⟩)).1 =
      Except.error (ArgsError.new "parse" "Argument to option 'option' missing") ∧
    C1_args.has_value "option" = false := by
  decide

/-- The registry of the C2 counterexample: a flag registered before a
required option with no default. -/
def C2_args : Args :=
  ((Args.new "program" "desc").flag "f" "flag" "Flag").option
    "o" "option" "Opt" "OPT" Occur.req none

/-- C2 counterexample, at tokens `["-f", "-o", ""]`: getopts matches the
flag (`Given`) and the required option once with the explicit empty-string
value (`Val("")`), so the tokenizer's `Occur::Req` check passes and it
returns this `Ok` outcome.  The resolution loop stores the flag's
`"true"`, then reaches the required option, resolves the empty value and
fails — yet the flag's value, inserted before the failure, is now
observable, so the store differs from what it was before the failed parse
call: resolution is not atomic on error. -/
theorem C2_counterexample :
    C2_args.has_value "flag" = false ∧
    (C2_args.parse (Except.ok ⟨[("flag", []), ("option", [""])]⟩)).1 =
      Except.error (ArgsError.new "parse" "Argument to option 'option' missing") ∧
    (C2_args.parse (Except.ok ⟨[("flag", []), ("option", [""])]⟩)).2.has_value "flag"
      = true := by
  decide

/-- C2 (amended): resolution is not atomic on error — values resolved for
descriptors processed before the failing one remain stored.  What does
hold: a tokenizer-level failure leaves the state completely untouched, and
no parse (failed or not) ever removes a stored value — every key
observable before the call is still observable after it. -/
theorem C2_failed_parse_store (a : Args) (msg : String)
    (tokenized : Except String Matches) (k : String) :
    a.parse (Except.error msg) = (Except.error (ArgsError.new SCOPE_PARSE msg), a) ∧
    (a.has_value k = true → ((a.parse tokenized).2).has_value k = true) := by
  constructor
  · rfl
  · intro hk
    cases tokenized with
    | error msg' => exact hk
    | ok m =>
        show (alookup (parseLoop a.opts m a.opt_names a.values).2 k).isSome = true
        exact parseLoop_lookup_isSome a.opts m a.opt_names a.values k hk

/-- Concrete instance for the C2 witness: a store already holding a key. -/
def C2_witness_args : Args := { Args.new "p" "d" with values := [("k", "v")] }

/-- Witness for C2: the amended theorem applied at concrete inputs. -/
theorem C2_witness :
    C2_witness_args.parse (Except.error "boom") =
      (Except.error (ArgsError.new SCOPE_PARSE "boom"), C2_witness_args) ∧
    ((C2_witness_args.parse (Except.ok ⟨[]⟩)).2).has_value "k" = true :=
  ⟨(C2_failed_parse_store C2_witness_args "boom" (Except.ok ⟨[]⟩) "k").1,
   (C2_failed_parse_store C2_witness_args "boom" (Except.ok ⟨[]⟩) "k").2 (by decide)⟩

/-- The registry of the C3 counterexample: one optional single-valued
option with no default. -/
def C3_args0 : Args :=
  (Args.new "program" "desc").option "o" "option" "Opt" "OPT" Occur.optional none

/-- The state after a first successful parse that matched `option ↦ a`. -/
def C3_args1 : Args := (C3_args0.parse (Except.ok ⟨[("option", ["a"])]⟩)).2

/-- C3 counterexample: the first parse stores `option ↦ a`; a second
successful parse with no occurrences resolves the option to absent
(`Opt::parse` returns `None`), yet the key remains observable afterwards —
a key resolved only by the first parse survives the second, so the prior
Value Store is not replaced. -/
theorem C3_counterexample :
    (C3_args0.parse (Except.ok ⟨[("option", ["a"])]⟩)).1 = Except.ok () ∧
    (C3_args1.parse (Except.ok ⟨[]⟩)).1 = Except.ok () ∧
    (alookup C3_args1.opts "option") =
      some (Opt.single "o" "option" "Opt" "OPT" HasArg.yes Occur.optional none) ∧
    (Opt.single "o" "option" "Opt" "OPT" HasArg.yes Occur.optional none).parse ⟨[]⟩
      = none ∧
    (C3_args1.parse (Except.ok ⟨[]⟩)).2.has_value "option" = true := by
  decide

/-- C3 (amended): a second parse updates the Value Store in place rather
than replacing it: a registered key the parse resolves to a non-empty
value is overwritten with that value, and a key the parse resolves to
absent (or empty) keeps whatever value it had before — values stored by an
earlier parse remain observable. -/
theorem C3_second_parse_updates_in_place (a a' : Args) (m : Matches)
    (name : String) (opt : Opt)
    (hopt : alookup a.opts name = some opt)
    (hmem : name ∈ a.opt_names)
    (hparse : a.parse (Except.ok m) = (Except.ok (), a')) :
    alookup a'.values name =
      (if (opt.parse m).getD "" ≠ "" then some ((opt.parse m).getD "")
       else alookup a.values name) := by
  obtain ⟨hok, hvals⟩ := Args.parse_ok_components a a' m hparse
  rw [hvals]
  exact parseLoop_lookup_of_ok a.opts m a.opt_names a.values name opt hopt hmem hok

/-- Witness for C3: the amended theorem applied to the counterexample
state — the second parse left the first parse's value in place. -/
theorem C3_witness :
    alookup ((C3_args1.parse (Except.ok ⟨[]⟩)).2).values "option" = some "a" :=
  (C3_second_parse_updates_in_place C3_args1 ((C3_args1.parse (Except.ok ⟨[]⟩)).2) ⟨[]⟩
    "option" (Opt.single "o" "option" "Opt" "OPT" HasArg.yes Occur.optional none)
    (by decide) (by decide) (by decide)).trans (by decide)

/-- C4 counterexample, at tokens `[]`: the tokenizer itself enforces
`Occur::Req` and fails with `Fail::OptionMissing` before any `Matches`
exists, so parse propagates "Required option 'option' missing" with
scope `"parse"` — not the claim's resolution-level MissingArgument with
the option's long name as its scope. -/
theorem C4_counterexample :
    ((((Args.new "program" "desc").option "o" "option" "Opt" "OPT" Occur.req none).parse
        (Except.error (Fail.optionMissing "option").render)).1 =
      Except.error (ArgsError.new "parse" "Required option 'option' missing")) ∧
    (ArgsError.new "parse" "Required option 'option' missing").renderedScopeIs
      "option" = false ∧
    (ArgsError.new "parse" "Required option 'option' missing").renderedScopeIs
      "parse" = true := by
  decide

/-- C4 (amended): for a SingleValue Required option with no default and no
matching token, parse returns an error — but it is the tokenizer's own
failure, surfaced with scope `"parse"` (`SCOPE_PARSE`), never with the
option's long name as scope.  getopts enforces `Occur::Req` before a
`Matches` object exists, so with no occurrence of the option the tokenizer
outcome cannot be `Ok`; `Args::parse` wraps whatever failure the tokenizer
reports as `ArgsError::new("parse", msg)`, and at getopts'
Req-enforcement failure `Fail::OptionMissing` the message is
"Required option '<name>' missing" — the long name appears in the
message, the scope stays `"parse"`. -/
theorem C4_required_missing_error (pn dsc s long d h : String)
    (tokenized : Except String Matches)
    (henf : TokenizerReqEnforced
      ((Args.new pn dsc).option s long d h Occur.req none) tokenized)
    (habsent : ∀ m, tokenized = Except.ok m → m.opt_strs long = []) :
    (∃ msg, tokenized = Except.error msg) ∧
    (∀ msg, tokenized = Except.error msg →
      ((Args.new pn dsc).option s long d h Occur.req none).parse tokenized =
        (Except.error (ArgsError.new SCOPE_PARSE msg),
         (Args.new pn dsc).option s long d h Occur.req none)) ∧
    (((Args.new pn dsc).option s long d h Occur.req none).parse
        (Except.error (Fail.optionMissing long).render) =
      (Except.error (ArgsError.new SCOPE_PARSE
        ("Required option '" ++ long ++ "' missing")),
       (Args.new pn dsc).option s long d h Occur.req none)) ∧
    (ArgsError.new SCOPE_PARSE
      ("Required option '" ++ long ++ "' missing")).renderedScopeIs SCOPE_PARSE
      = true := by
  refine ⟨?_, ?_, ?_, ?_⟩
  · cases tokenized with
    | error msg => exact ⟨msg, rfl⟩
    | ok m =>
        exfalso
        have hopts : ((Args.new pn dsc).option s long d h Occur.req none).opts =
            [(long, Opt.single s long d h HasArg.yes Occur.req none)] := by
          simp [Args.option, optionsNew, Single.new, Args.register_opt, Args.new,
            Opt.name, ainsert]
        have hmem : (long, Opt.single s long d h HasArg.yes Occur.req none) ∈
            ((Args.new pn dsc).option s long d h Occur.req none).opts := by
          rw [hopts]
          exact List.mem_singleton.mpr rfl
        have hne := henf m rfl long
          (Opt.single s long d h HasArg.yes Occur.req none) hmem rfl rfl
        exact hne (habsent m rfl)
  · intro msg heq
    subst heq
    rfl
  · rfl
  · exact renderedScopeIs_of_new SCOPE_PARSE _ (by decide)

/-- Witness for C4: the amended theorem applied at the concrete registry
and the tokenizer outcome getopts produces at tokens `[]`. -/
theorem C4_witness :
    ((Args.new "p" "d").option "o" "option" "Opt" "OPT" Occur.req none).parse
      (Except.error (Fail.optionMissing "option").render) =
      (Except.error (ArgsError.new SCOPE_PARSE "Required option 'option' missing"),
       (Args.new "p" "d").option "o" "option" "Opt" "OPT" Occur.req none) :=
  (C4_required_missing_error "p" "d" "o" "option" "Opt" "OPT"
    (Except.error (Fail.optionMissing "option").render)
    (fun _ hm => Except.noConfusion hm)
    (fun _ hm => Except.noConfusion hm)).2.2.1

/-- C5: registering a long name that already exists is a no-op.  If the
name is already known the call returns the registry unchanged, and a
second registration under the same long name collapses onto the first —
the registry state (and hence all subsequent parsing, governed by the
original descriptor's arity and default) is exactly as if the second
registration never happened. -/
theorem C5_duplicate_registration_noop (a : Args) (o1 o2 : Opt)
    (hname : o2.name = o1.name) :
    (a.opt_names.contains o1.name = true → a.register_opt o1 = a) ∧
    (a.register_opt o1).register_opt o2 = a.register_opt o1 := by
  constructor
  · intro hc
    unfold Args.register_opt
    rw [hc]
    simp
  · by_cases hc : a.opt_names.contains o1.name = true
    · have h1 : a.register_opt o1 = a := by
        unfold Args.register_opt
        rw [hc]
        simp
      rw [h1]
      unfold Args.register_opt
      rw [hname, hc]
      simp
    · have hc' : a.opt_names.contains o1.name = false := by
        simpa using hc
      have h1 : a.register_opt o1 =
          { a with
            opt_names := a.opt_names ++ [o1.name]
            opts := ainsert a.opts o1.name o1 } := by
        unfold Args.register_opt
        rw [hc']
        simp
      rw [h1]
      unfold Args.register_opt
      rw [hname]
      have : (a.opt_names ++ [o1.name]).contains o1.name = true := by
        simp
      rw [this]
      simp

/-- Witness for C5: two registrations under the long name `option`, with
different arities and defaults — the second is ignored. -/
theorem C5_witness :
    (((Args.new "p" "d").register_opt
        (Opt.single "o" "option" "first" "OPT" HasArg.yes Occur.req none)).register_opt
        (Opt.single "x" "option" "second" "X" HasArg.yes Occur.optional (some "d"))) =
      ((Args.new "p" "d").register_opt
        (Opt.single "o" "option" "first" "OPT" HasArg.yes Occur.req none)) :=
  (C5_duplicate_registration_noop (Args.new "p" "d")
    (Opt.single "o" "option" "first" "OPT" HasArg.yes Occur.req none)
    (Opt.single "x" "option" "second" "X" HasArg.yes Occur.optional (some "d"))
    (by decide)).2

/-- C6: a SingleValue option constructed with a default is forced to
effective requiredness Optional regardless of the declared occurrence, and
with a non-empty default `D` and no matching token, parse succeeds and
`value_of::<String>` returns `Ok(D)`. -/
theorem C6_default_forces_optional (pn dsc s long d h D : String) (occur : Occur)
    (m : Matches) (hD : D ≠ "") (hocc : occur ≠ Occur.multi)
    (habsent : m.opt_str long = none) :
    alookup ((Args.new pn dsc).option s long d h occur (some D)).opts long =
      some (Opt.single s long d h HasArg.yes Occur.optional (some D)) ∧
    (Opt.single s long d h HasArg.yes Occur.optional (some D)).is_required = false ∧
    ((((Args.new pn dsc).option s long d h occur (some D)).parse (Except.ok m)).1 =
      Except.ok ()) ∧
    ((((Args.new pn dsc).option s long d h occur (some D)).parse
        (Except.ok m)).2.value_of (T := String) long = Except.ok D) := by
  refine ⟨?_, ?_, ?_, ?_⟩
  · simp [Args.option, optionsNew, Single.new, Args.register_opt, Args.new, Opt.name,
      alookup, hocc]
  · simp [Opt.is_required]
  · simp [Args.option, optionsNew, Single.new, Args.register_opt, Args.new, Args.parse,
      parseLoop, alookup, Opt.parse, Opt.is_required, Opt.name, habsent, Option.orElse,
      hocc, hD]
  · simp [Args.option, optionsNew, Single.new, Args.register_opt, Args.new, Args.parse,
      parseLoop, alookup, Opt.parse, Opt.is_required, Opt.name, habsent, Option.orElse,
      hocc, hD, Args.value_of, FromStr.from_str]

/-- Witness for C6: a `Req`-declared option with default `"default"` and
no match — effectively optional, resolving to the default. -/
theorem C6_witness :
    alookup ((Args.new "p" "d").option "o" "option" "Opt" "OPT" Occur.req
        (some "default")).opts "option" =
      some (Opt.single "o" "option" "Opt" "OPT" HasArg.yes Occur.optional
        (some "default")) ∧
    (Opt.single "o" "option" "Opt" "OPT" HasArg.yes Occur.optional
        (some "default")).is_required = false ∧
    ((((Args.new "p" "d").option "o" "option" "Opt" "OPT" Occur.req
        (some "default")).parse (Except.ok ⟨[]⟩)).1 = Except.ok ()) ∧
    ((((Args.new "p" "d").option "o" "option" "Opt" "OPT" Occur.req
        (some "default")).parse (Except.ok ⟨[]⟩)).2.value_of (T := String) "option" =
      Except.ok "default") :=
  C6_default_forces_optional "p" "d" "o" "option" "Opt" "OPT" "default" Occur.req ⟨[]⟩
    (by decide) (by decide) (by decide)

/-- C7: `validated_value_of` is `value_of` followed by the validations in
the given order — a coercion (or lookup) failure is returned before any
validation runs, the first validation reporting invalid short-circuits
with its error (`find?` finds the first failing one), and if all pass the
coerced value is returned unchanged. -/
theorem C7_validated_value_of_pipeline {T : Type} [FromStr T] (a : Args)
    (opt_name : String) (vs : List (Validation T)) :
    (∀ v : T, a.value_of (T := T) opt_name = Except.ok v →
      a.validated_value_of opt_name vs =
        (match vs.find? (fun x => x.is_invalid v) with
         | some x => Except.error (x.error v)
         | none => Except.ok v)) ∧
    (∀ e : ArgsError, a.value_of (T := T) opt_name = Except.error e →
      a.validated_value_of opt_name vs = Except.error e) := by
  constructor
  · intro v hv
    unfold Args.validated_value_of
    rw [hv]
    exact runValidations_eq_find v vs
  · intro e he
    unfold Args.validated_value_of
    rw [he]
    rfl

/-- The concrete store of the C7 witness, holding a raw value for `n`. -/
def C7_args (raw : String) : Args := { Args.new "p" "d" with values := [("n", raw)] }

/-- The validations of the spec's round-trip example:
`[GreaterThan(0), LessThanOrEqual(10)]` over `i32`. -/
def C7_validations : List (Validation Int) :=
  [OrderValidation.new Order.greaterThan (0 : Int),
   OrderValidation.new Order.lessThanOrEqual (10 : Int)]

/-- Witness for C7: the spec's round-trip — `-n 5` passes both bounds,
`-n 0` fails the GreaterThan bound, `-n abc` fails coercion before any
validation runs. -/
theorem C7_witness :
    (C7_args "5").validated_value_of "n" C7_validations = Except.ok 5 ∧
    (C7_args "0").validated_value_of "n" C7_validations =
      Except.error (ArgsError.new "order invalid" "0 is not greater than 0") ∧
    (C7_args "abc").validated_value_of "n" C7_validations =
      Except.error (ArgsError.new "n" "unable to parse 'abc'") := by
  refine ⟨?_, ?_, ?_⟩
  · exact ((C7_validated_value_of_pipeline (C7_args "5") "n" C7_validations).1 5
      (by decide)).trans (by decide)
  · exact ((C7_validated_value_of_pipeline (C7_args "0") "n" C7_validations).1 0
      (by decide)).trans (by decide)
  · exact (C7_validated_value_of_pipeline (C7_args "abc") "n" C7_validations).2
      (ArgsError.new "n" "unable to parse 'abc'") (by decide)

/-- C8: for a MultiValue option whose matched occurrence values are
non-empty and contain no reserved delimiter, the join-at-resolution /
split-at-access round-trip is the identity: parse succeeds and
`values_of::<String>` returns exactly the matched occurrence values in
occurrence order; and for any coercible target type, `values_of` coerces
every piece and fails with the first piece that fails coercion. -/
theorem C8_multi_values_roundtrip (pn dsc s long d h : String) (vs : List String)
    (m : Matches)
    (hvs : m.opt_strs long = vs)
    (hne : vs ≠ [])
    (hnonempty : ∀ p ∈ vs, p ≠ "")
    (hsep : ∀ p ∈ vs, SEPARATOR ∉ p.data) :
    ((((Args.new pn dsc).option s long d h Occur.multi none).parse (Except.ok m)).1 =
      Except.ok ()) ∧
    ((((Args.new pn dsc).option s long d h Occur.multi none).parse
        (Except.ok m)).2.values_of (T := String) long = Except.ok vs) ∧
    (∀ (T : Type) [FromStr T] (good : List String) (bad : String) (rest : List String),
      vs = good ++ bad :: rest →
      (∀ q ∈ good, (FromStr.from_str (T := T) q).isSome = true) →
      FromStr.from_str (T := T) bad = none →
      (((Args.new pn dsc).option s long d h Occur.multi none).parse
          (Except.ok m)).2.values_of (T := T) long =
        Except.error (ArgsError.new long ("unable to parse '" ++ bad ++ "'"))) := by
  have hjne : strJoin vs ≠ "" := strJoin_ne_empty vs hne hnonempty hsep
  have hroundtrip : strSplit (strJoin vs) = vs := strSplit_strJoin vs hne hsep
  have h2 : ((((Args.new pn dsc).option s long d h Occur.multi none).parse
      (Except.ok m)).2).values = [(long, strJoin vs)] := by
    simp [Args.option, optionsNew, Single.new, Multi.new, Args.register_opt, Args.new,
      Args.parse, parseLoop, alookup, Opt.parse, Opt.is_required, Opt.name, hvs, hne,
      hjne, ainsert]
  have hlook : alookup ((((Args.new pn dsc).option s long d h Occur.multi none).parse
      (Except.ok m)).2).values long = some (strJoin vs) := by
    rw [h2]
    simp [alookup]
  refine ⟨?_, ?_, ?_⟩
  · simp [Args.option, optionsNew, Single.new, Multi.new, Args.register_opt, Args.new,
      Args.parse, parseLoop, alookup, Opt.parse, Opt.is_required, Opt.name, hvs, hne,
      hjne]
  · unfold Args.values_of
    rw [hlook]
    show coerceAll long (strSplit (strJoin vs)) = Except.ok vs
    rw [hroundtrip]
    exact coerceAll_string long vs
  · intro T inst good bad rest hdecomp hgood hbad
    unfold Args.values_of
    rw [hlook]
    show coerceAll long (strSplit (strJoin vs)) = _
    rw [hroundtrip, hdecomp]
    exact coerceAll_first_failure long good bad rest hgood hbad

/-- Witness for C8: occurrences `[-o a, -o b]` round-trip as
`Ok(["a", "b"])` for `String`, and fail at the first piece (`a`) for
`i32`. -/
theorem C8_witness :
    ((((Args.new "p" "d").option "o" "option" "Opt" "OPT" Occur.multi none).parse
        (Except.ok ⟨[("option", ["a", "b"])]⟩)).1 = Except.ok ()) ∧
    ((((Args.new "p" "d").option "o" "option" "Opt" "OPT" Occur.multi none).parse
        (Except.ok ⟨[("option", ["a", "b"])]⟩)).2.values_of (T := String) "option" =
      Except.ok ["a", "b"]) ∧
    ((((Args.new "p" "d").option "o" "option" "Opt" "OPT" Occur.multi none).parse
        (Except.ok ⟨[("option", ["a", "b"])]⟩)).2.values_of (T := Int) "option" =
      Except.error (ArgsError.new "option" "unable to parse 'a'")) := by
  have h := C8_multi_values_roundtrip "p" "d" "o" "option" "Opt" "OPT" ["a", "b"]
    ⟨[("option", ["a", "b"])]⟩ (by decide) (by decide) (by decide) (by decide)
  refine ⟨h.1, h.2.1, ?_⟩
  exact h.2.2 Int [] "a" ["b"] rfl (by intro q hq; cases hq) (by decide)

/-- C9: a registered NoValue (flag) option always resolves: after any
successful parse, `value_of::<bool>` on the flag returns exactly the
flag's presence in the matches — `Ok(true)` when present, `Ok(false)` when
absent, never a missing-value error. -/
theorem C9_flag_presence (a a' : Args) (m : Matches) (name s d h : String)
    (occ : Occur) (df : Option String)
    (hopt : alookup a.opts name = some (Opt.single s name d h HasArg.no occ df))
    (hmem : name ∈ a.opt_names)
    (hparse : a.parse (Except.ok m) = (Except.ok (), a')) :
    a'.value_of (T := Bool) name = Except.ok (m.opt_present name) := by
  obtain ⟨hok, hvals⟩ := Args.parse_ok_components a a' m hparse
  have hstore := parseLoop_lookup_of_ok a.opts m a.opt_names a.values name _ hopt hmem hok
  have hparseval : (Opt.single s name d h HasArg.no occ df).parse m
      = some (toString (m.opt_present name)) := by
    simp [Opt.parse]
  rw [hparseval] at hstore
  cases hb : m.opt_present name with
  | false =>
      rw [hb] at hstore
      have hlook : alookup a'.values name = some "false" := by
        rw [hvals, hstore]
        rw [show (toString false : String) = "false" from rfl]
        simp
      simp [Args.value_of, hlook, FromStr.from_str]
  | true =>
      rw [hb] at hstore
      have hlook : alookup a'.values name = some "true" := by
        rw [hvals, hstore]
        rw [show (toString true : String) = "true" from rfl]
        simp
      simp [Args.value_of, hlook, FromStr.from_str]

/-- The registry of the C9 witness: one registered flag. -/
def C9_args : Args := (Args.new "p" "d").flag "f" "flag" "Flag"

/-- Witness for C9: presence gives `Ok(true)`, absence gives `Ok(false)`. -/
theorem C9_witness :
    ((C9_args.parse (Except.ok ⟨[("flag", [])]⟩)).2.value_of (T := Bool) "flag" =
      Except.ok true) ∧
    ((C9_args.parse (Except.ok ⟨[]⟩)).2.value_of (T := Bool) "flag" =
      Except.ok false) :=
  ⟨C9_flag_presence C9_args ((C9_args.parse (Except.ok ⟨[("flag", [])]⟩)).2)
      ⟨[("flag", [])]⟩ "flag" "f" "Flag" "" Occur.optional none
      (by decide) (by decide) (by decide),
   C9_flag_presence C9_args ((C9_args.parse (Except.ok ⟨[]⟩)).2)
      ⟨[]⟩ "flag" "f" "Flag" "" Occur.optional none
      (by decide) (by decide) (by decide)⟩

/-- C10: an empty-string resolved value is treated exactly like absence.
The Value Store never holds an empty-string value (parse preserves the
invariant for any tokenizer outcome), and for a SingleValue option that
getopts matched with the explicit empty-string argument (tokens
`['-o', '']`): a Required option with no default makes parse fail with the
argument-missing parse error, while an Optional one succeeds and simply
stores no key. -/
theorem C10_empty_value_like_absence (a : Args) (tokenized : Except String Matches)
    (hclean : ∀ k, alookup a.values k ≠ some "") :
    (∀ k, alookup ((a.parse tokenized).2).values k ≠ some "") ∧
    ((((Args.new "p" "d").option "o" "option" "Opt" "OPT" Occur.req none).parse
        (Except.ok ⟨[("option", [""])]⟩)).1 =
      Except.error (ArgsError.new "parse" "Argument to option 'option' missing")) ∧
    ((((Args.new "p" "d").option "o" "option" "Opt" "OPT" Occur.optional none).parse
        (Except.ok ⟨[("option", [""])]⟩)).1 = Except.ok ()) ∧
    ((((Args.new "p" "d").option "o" "option" "Opt" "OPT" Occur.optional none).parse
        (Except.ok ⟨[("option", [""])]⟩)).2.has_value "option" = false) := by
  refine ⟨?_, by decide, by decide, by decide⟩
  cases tokenized with
  | error msg => exact hclean
  | ok m =>
      show ∀ k, alookup (parseLoop a.opts m a.opt_names a.values).2 k ≠ some ""
      exact parseLoop_no_empty_value a.opts m a.opt_names a.values hclean

/-- Witness for C10: the invariant applied to a fresh registry and a
concrete key. -/
theorem C10_witness :
    alookup (((Args.new "p" "d").parse (Except.ok ⟨[]⟩)).2).values "x" ≠ some "" :=
  (C10_empty_value_like_absence (Args.new "p" "d") (Except.ok ⟨[]⟩)
    (fun k => by simp [Args.new, alookup])).1 "x"

end Args2Proof
